import Mathlib

/-!
Verification of the single-threaded TCP echo server in `src/main.cpp`
(`my-trash-bin/select-echo-server`).  The program is shallowly embedded:
OS interaction (socket / setsockopt / fcntl / bind / listen / select /
recv / send / accept / close) is modelled by explicit outcome records,
and each piece of control flow of the C++ source is translated into a
Lean function over those outcomes.  Events record the system calls the
program performs, so that resource-handling claims (descriptor leaks,
ordering of servicing) can be stated as facts about the event trace.
-/

/-- Errors raised by the program, one per `throw ft::exception(...)` site
in `src/main.cpp`.  The associated message strings are in
`FtError.message`. -/
inductive FtError
| InvalidPort
| SocketCreateFailed
| SocketOptionFailed
| FcntlFailed
| BindFailed
| AlreadyListening
| ListenFailed
| AlreadyStarted
| AcceptFailed
deriving DecidableEq, Repr

/-- Message string carried by each `ft::exception`, exactly the literals
of `src/main.cpp`. -/
def FtError.message : FtError → String
| .InvalidPort => "Invalid port"
| .SocketCreateFailed => "socket()"
| .SocketOptionFailed => "setsockopt()"
| .FcntlFailed => "fcntl(F_SETFL)"
| .BindFailed => "bind()"
| .AlreadyListening => "Already listening"
| .ListenFailed => "listen()"
| .AlreadyStarted => "Already started"
| .AcceptFailed => "accept()"

/-- A C++ exception in flight, tracked by its dynamic type.
`ftExc e` is a live `ft::exception`.  `stdExc e` is the result of the
constructor's `catch (const std::exception &e) { ...; throw e; }`:
`throw e` copy-initialises a new exception of static type
`std::exception`, slicing away the derived part.  The original error `e`
is recorded for specification purposes only; the sliced object no longer
carries its message, and no handler for `ft::exception` matches it. -/
inductive CppExc
| ftExc (e : FtError)
| stdExc (original : FtError)
deriving DecidableEq, Repr

/-- System calls performed by the program, with the arguments the claims
talk about. -/
inductive Ev
| socketCall (ret : Int)
| setsockoptCall (fd : Int)
| fcntlCall (fd : Int)
| bindCall (fd : Int)
| closeCall (fd : Int)
| recvCall (sock : Int)
| sendCall (sock : Int) (data : List UInt8)
| shutdownCall (sock : Int)
| acceptCall (ret : Int)
| setNonblockCall (sock : Int)
deriving DecidableEq, Repr

/-- Outcome of one `recv(sock, buf.data(), BUFFER_SIZE, 0)` call as the
program observes it: the return value `nRead`, the buffer contents after
the call (`buf`, the first `nRead` bytes are the received data when
`nRead > 0`), whether `errno == EAGAIN` holds right after the call
(`errno` is ambient state: a successful or zero `recv` leaves it stale),
and the return value of the subsequent `send`, which the program
discards. -/
structure RecvOutcome where
  nRead : Int
  buf : List UInt8
  errnoEAGAIN : Bool
  sendRet : Int
deriving DecidableEq, Repr

/-- Servicing of one ready client descriptor, lines 140-152 of
`src/main.cpp`: `recv`; if `nRead <= 0 && errno != EAGAIN` then
`shutdown`, `close` and erase from the set; else if `nRead > 0` then
`send` back the first `nRead` bytes of the buffer; else keep the
connection.  Returns whether the descriptor stays in the live set,
plus the event trace. -/
def serviceClient (sock : Int) (r : RecvOutcome) : Bool × List Ev :=
  if r.nRead ≤ 0 ∧ r.errnoEAGAIN = false then
    (false, [Ev.recvCall sock, Ev.shutdownCall sock, Ev.closeCall sock])
  else if r.nRead > 0 then
    (true, [Ev.recvCall sock, Ev.sendCall sock (r.buf.take r.nRead.toNat)])
  else
    (true, [Ev.recvCall sock])

/-- The client-servicing loop (lines 137-156): iterate over the
`std::set` in ascending order; descriptors marked ready by `select` are
serviced, the others skipped.  `clients` is the set's ascending element
list.  Returns the surviving element list and the concatenated event
trace in servicing order. -/
def serviceClients (ready : Int → Bool) (recvOf : Int → RecvOutcome) :
    List Int → List Int × List Ev
| [] => ([], [])
| sock :: rest =>
  if ready sock then
    ((if (serviceClient sock (recvOf sock)).1 then
        sock :: (serviceClients ready recvOf rest).1
      else
        (serviceClients ready recvOf rest).1),
      (serviceClient sock (recvOf sock)).2 ++ (serviceClients ready recvOf rest).2)
  else
    (sock :: (serviceClients ready recvOf rest).1,
      (serviceClients ready recvOf rest).2)

/-- Insertion into the ascending element list of a `std::set<int>`
(`clientSockets.insert(sock)`); duplicates are not added. -/
def insertSorted (x : Int) : List Int → List Int
| [] => [x]
| y :: ys =>
  if x < y then x :: y :: ys
  else if x = y then y :: ys
  else y :: insertSorted x ys

/-- Translation of `ft::Server::maxSocketId` (lines 107-113): the server
socket if the client set is empty, otherwise the larger of the server
socket and `*clientSockets.rbegin()` — the last element of the ascending
element list. -/
def maxSocketId (serverSocket : Int) (clientSockets : List Int) : Int :=
  match clientSockets.getLast? with
  | none => serverSocket
  | some m => max serverSocket m

/-- The interest set handed to `select`: `FD_ZERO`, `FD_SET(listener)`,
then `FD_SET` for every client (lines 127-132). -/
def interestSet (listenFd : Int) (clients : List Int) : List Int :=
  listenFd :: clients

/-- The OS-dependent outcomes of one iteration of the event loop:
which descriptors `select` marks ready, the `recv` outcome for each
client, the return value of `accept`, and whether the `fcntl` calls of
`setFdNonblock` on the accepted descriptor succeed. -/
structure OsIter where
  ready : Int → Bool
  recvOf : Int → RecvOutcome
  acceptRet : Int
  acceptFcntlOk : Bool

/-- One iteration of the `while (true)` loop of `ft::Server::start`
(lines 126-165): service every ready client in ascending order, then, if
the listening descriptor is ready, `accept` one connection — throwing
`AcceptFailed` on `-1` — make it non-blocking and insert it into the
set.  Returns the new client set and the event trace, or the error that
propagates out of `start`. -/
def serverStartIter (listenFd : Int) (os : OsIter) (clients : List Int) :
    Except FtError (List Int × List Ev) :=
  let sc := serviceClients os.ready os.recvOf clients
  if os.ready listenFd then
    if os.acceptRet = -1 then
      Except.error FtError.AcceptFailed
    else if os.acceptFcntlOk then
      Except.ok (insertSorted os.acceptRet sc.1,
        sc.2 ++ [Ev.acceptCall os.acceptRet, Ev.setNonblockCall os.acceptRet])
    else
      Except.error FtError.FcntlFailed
  else
    Except.ok (sc.1, sc.2)

/-- The OS-dependent outcomes of `ft::ServerSocket::ServerSocket`:
the return value of `socket()` (a descriptor, or negative on failure),
of `setsockopt()` and `bind()` (negative on failure), and whether the
`fcntl` pair of `setFdNonblock` succeeds. -/
structure CtorOs where
  socketRet : Int
  setsockoptRet : Int
  fcntlOk : Bool
  bindRet : Int
deriving DecidableEq, Repr

/-- Translation of `ft::ServerSocket::ServerSocket(int port)`
(lines 38-67): validate the port before any system call; `socket()`;
then, inside a `try` block, `setsockopt`, `setFdNonblock`, `bind`.  The
`catch (const std::exception &e)` closes the descriptor and re-raises
with `throw e`, which slices the exception to `std::exception`
(`CppExc.stdExc`).  Returns the event trace and either the exception or
the descriptor. -/
def serverSocketCtor (port : Int) (os : CtorOs) :
    List Ev × Except CppExc Int :=
  if port ≤ 0 ∨ port > 65535 then
    ([], Except.error (CppExc.ftExc FtError.InvalidPort))
  else if os.socketRet < 0 then
    ([Ev.socketCall os.socketRet],
      Except.error (CppExc.ftExc FtError.SocketCreateFailed))
  else if os.setsockoptRet < 0 then
    ([Ev.socketCall os.socketRet, Ev.setsockoptCall os.socketRet,
      Ev.closeCall os.socketRet],
      Except.error (CppExc.stdExc FtError.SocketOptionFailed))
  else if os.fcntlOk = false then
    ([Ev.socketCall os.socketRet, Ev.setsockoptCall os.socketRet,
      Ev.fcntlCall os.socketRet, Ev.closeCall os.socketRet],
      Except.error (CppExc.stdExc FtError.FcntlFailed))
  else if os.bindRet < 0 then
    ([Ev.socketCall os.socketRet, Ev.setsockoptCall os.socketRet,
      Ev.fcntlCall os.socketRet, Ev.bindCall os.socketRet,
      Ev.closeCall os.socketRet],
      Except.error (CppExc.stdExc FtError.BindFailed))
  else
    ([Ev.socketCall os.socketRet, Ev.setsockoptCall os.socketRet,
      Ev.fcntlCall os.socketRet, Ev.bindCall os.socketRet],
      Except.ok os.socketRet)

/-- Outcome of running `ft::Server server(port)` up to the point where
an exception would reach `main`, discarding the constructed value. -/
def startupOutcome (port : Int) (os : CtorOs) : Except CppExc Unit :=
  match (serverSocketCtor port os).2 with
  | Except.error e => Except.error e
  | Except.ok _ => Except.ok ()

/-- How the process ends: a normal `return` from `main` with an exit
code and the lines printed to `std::cerr`, or `std::terminate` (abort)
from an exception no handler in `main` matches. -/
inductive ProcResult
| exited (code : Nat) (stderrLines : List String)
| aborted
deriving DecidableEq, Repr

/-- Translation of `main` (lines 171-184): with an argument count other
than 2, print the usage line and `return EXIT_SUCCESS`; otherwise run
the server and catch `const ft::exception &` only — a sliced
`std::exception` is unhandled and terminates the process. -/
def ftMain (argc : Nat) (serverRun : Except CppExc Unit) : ProcResult :=
  if argc ≠ 2 then
    ProcResult.exited 0 ["Usage: port"]
  else
    match serverRun with
    | Except.ok _ => ProcResult.exited 0 []
    | Except.error (CppExc.ftExc e) => ProcResult.exited 1 [e.message]
    | Except.error (CppExc.stdExc _) => ProcResult.aborted

/-- Sequence of descriptors passed to `recv`, in trace order. -/
def recvSeq (evs : List Ev) : List Int :=
  evs.filterMap fun e =>
    match e with
    | Ev.recvCall s => some s
    | _ => none

/-- Whether an event reads from or writes to descriptor `a`. -/
def readsOrWrites (a : Int) : Ev → Bool
| Ev.recvCall s => s = a
| Ev.sendCall s _ => s = a
| _ => false

/-- Whether an event is an `accept` call. -/
def isAcceptEv : Ev → Bool
| Ev.acceptCall _ => true
| _ => false

/-! ### Helper lemmas -/

theorem recvSeq_append (l₁ l₂ : List Ev) :
    recvSeq (l₁ ++ l₂) = recvSeq l₁ ++ recvSeq l₂ := by
  unfold recvSeq
  simp

theorem serviceClient_fst_eq_false_iff (sock : Int) (r : RecvOutcome) :
    (serviceClient sock r).1 = false ↔ r.nRead ≤ 0 ∧ r.errnoEAGAIN = false := by
  unfold serviceClient
  by_cases h : r.nRead ≤ 0 ∧ r.errnoEAGAIN = false
  · simp [h]
  · by_cases h2 : r.nRead > 0 <;> simp [h, h2]

theorem recvSeq_serviceClient (sock : Int) (r : RecvOutcome) :
    recvSeq (serviceClient sock r).2 = [sock] := by
  unfold serviceClient recvSeq
  by_cases h : r.nRead ≤ 0 ∧ r.errnoEAGAIN = false
  · simp [h]
  · by_cases h2 : r.nRead > 0 <;> simp [h, h2]

theorem recvSeq_serviceClients (ready : Int → Bool) (recvOf : Int → RecvOutcome)
    (clients : List Int) :
    recvSeq (serviceClients ready recvOf clients).2 = clients.filter ready := by
  induction clients with
  | nil => rfl
  | cons sock rest ih =>
    by_cases h : ready sock
    · simp [serviceClients, h, recvSeq_append, recvSeq_serviceClient, ih]
    · simp [serviceClients, h, ih]

theorem serviceClients_sublist (ready : Int → Bool) (recvOf : Int → RecvOutcome)
    (clients : List Int) :
    List.Sublist (serviceClients ready recvOf clients).1 clients := by
  induction clients with
  | nil => simp [serviceClients]
  | cons sock rest ih =>
    by_cases h : ready sock
    · by_cases hk : (serviceClient sock (recvOf sock)).1
      · simpa [serviceClients, h, hk] using ih.cons₂ sock
      · simpa [serviceClients, h, hk] using ih.cons sock
    · simpa [serviceClients, h] using ih.cons₂ sock

theorem serviceClient_snd_sendRet (sock : Int) (r : RecvOutcome) (v : Int) :
    serviceClient sock ⟨r.nRead, r.buf, r.errnoEAGAIN, v⟩ = serviceClient sock r := by
  unfold serviceClient
  rfl

theorem mem_serviceClients (ready : Int → Bool) (recvOf : Int → RecvOutcome)
    (clients : List Int) (hp : clients.Pairwise (· < ·)) (sock : Int)
    (hs : sock ∈ clients) :
    sock ∈ (serviceClients ready recvOf clients).1 ↔
      ¬(ready sock = true ∧ (recvOf sock).nRead ≤ 0 ∧
        (recvOf sock).errnoEAGAIN = false) := by
  induction clients with
  | nil => cases hs
  | cons a rest ih =>
    have ha : ∀ y ∈ rest, a < y := (List.pairwise_cons.mp hp).1
    have hp' : rest.Pairwise (· < ·) := (List.pairwise_cons.mp hp).2
    rcases List.mem_cons.mp hs with heq | hmem
    · subst heq
      have hnotrest : sock ∉ (serviceClients ready recvOf rest).1 := by
        intro hcon
        have : sock ∈ rest := (serviceClients_sublist ready recvOf rest).mem hcon
        exact absurd rfl (ne_of_lt (ha sock this))
      by_cases h : ready sock
      · by_cases hk : (serviceClient sock (recvOf sock)).1
        · have hkeep := (not_iff_not.mpr (serviceClient_fst_eq_false_iff sock (recvOf sock))).mp
            (by simp [hk])
          simp [serviceClients, h, hk, hkeep]
        · have hdrop := (serviceClient_fst_eq_false_iff sock (recvOf sock)).mp
            (by simpa using hk)
          simp [serviceClients, h, hk, hnotrest, hdrop]
      · simp [serviceClients, h]
    · have hne : sock ≠ a := by
        intro heq
        exact absurd rfl (ne_of_lt (heq ▸ ha sock hmem))
      by_cases h : ready a
      · by_cases hk : (serviceClient a (recvOf a)).1 <;>
          simp [serviceClients, h, hk, hne, ih hp' hmem]
      · simp [serviceClients, h, hne, ih hp' hmem]

theorem readsOrWrites_serviceClient (sock : Int) (r : RecvOutcome) (a : Int)
    (hne : a ≠ sock) :
    ∀ e ∈ (serviceClient sock r).2, readsOrWrites a e = false := by
  have hne' : sock ≠ a := fun h => hne h.symm
  unfold serviceClient
  by_cases h : r.nRead ≤ 0 ∧ r.errnoEAGAIN = false
  · simp [h, readsOrWrites, hne']
  · by_cases h2 : r.nRead > 0 <;> simp [h, h2, readsOrWrites, hne']

theorem readsOrWrites_serviceClients (ready : Int → Bool) (recvOf : Int → RecvOutcome)
    (a : Int) (clients : List Int) (hna : a ∉ clients) :
    ∀ e ∈ (serviceClients ready recvOf clients).2, readsOrWrites a e = false := by
  induction clients with
  | nil => simp [serviceClients]
  | cons sock rest ih =>
    have hne : a ≠ sock := fun h => hna (h ▸ List.mem_cons_self sock rest)
    have hrest : a ∉ rest := fun h => hna (List.mem_cons_of_mem sock h)
    intro e he
    by_cases h : ready sock
    · simp only [serviceClients, h, if_true, List.mem_append] at he
      rcases he with he | he
      · exact readsOrWrites_serviceClient sock (recvOf sock) a hne e he
      · exact ih hrest e he
    · simp only [serviceClients, h, if_false] at he
      exact ih hrest e he

theorem isAcceptEv_serviceClient (sock : Int) (r : RecvOutcome) :
    ∀ e ∈ (serviceClient sock r).2, isAcceptEv e = false := by
  unfold serviceClient
  by_cases h : r.nRead ≤ 0 ∧ r.errnoEAGAIN = false
  · simp [h, isAcceptEv]
  · by_cases h2 : r.nRead > 0 <;> simp [h, h2, isAcceptEv]

theorem isAcceptEv_serviceClients (ready : Int → Bool) (recvOf : Int → RecvOutcome)
    (clients : List Int) :
    ∀ e ∈ (serviceClients ready recvOf clients).2, isAcceptEv e = false := by
  induction clients with
  | nil => simp [serviceClients]
  | cons sock rest ih =>
    intro e he
    by_cases h : ready sock
    · simp only [serviceClients, h, if_true, List.mem_append] at he
      rcases he with he | he
      · exact isAcceptEv_serviceClient sock (recvOf sock) e he
      · exact ih e he
    · simp only [serviceClients, h, if_false] at he
      exact ih e he

theorem mem_insertSorted_self (x : Int) (l : List Int) : x ∈ insertSorted x l := by
  induction l with
  | nil => simp [insertSorted]
  | cons y ys ih =>
    by_cases h1 : x < y
    · simp [insertSorted, h1]
    · by_cases h2 : x = y
      · simp [insertSorted, h1, h2]
      · simp [insertSorted, h1, h2, ih]

theorem getLast?_of_sorted (l : List Int) (hne : l ≠ []) (hp : l.Pairwise (· < ·)) :
    ∃ m, l.getLast? = some m ∧ m ∈ l ∧ ∀ x ∈ l, x ≤ m := by
  induction l with
  | nil => exact absurd rfl hne
  | cons a t ih =>
    cases t with
    | nil => exact ⟨a, by simp, by simp, by simp⟩
    | cons b u =>
      have ha : ∀ y ∈ b :: u, a < y := (List.pairwise_cons.mp hp).1
      obtain ⟨m, hm1, hm2, hm3⟩ := ih (by simp) (List.pairwise_cons.mp hp).2
      refine ⟨m, ?_, List.mem_cons_of_mem a hm2, ?_⟩
      · rw [List.getLast?_cons_cons]
        exact hm1
      · intro x hx
        rcases List.mem_cons.mp hx with heq | hmem
        · exact heq ▸ le_of_lt (lt_of_lt_of_le (ha m hm2) (le_refl m)) |>.trans (le_refl m) |>.trans (le_refl m)
        · exact hm3 x hmem

/-! ### Claim theorems -/

/-- C1: a byte sequence `B` of length at most 1024 received from a ready
client in one `recv` (so `nRead = B.length > 0` and the buffer starts
with `B`) is sent back on the same descriptor, unmodified and in order:
servicing performs exactly a `recv` followed by a `send` of `B`, and the
connection stays live. -/
theorem echo_correct (sock : Int) (B junk : List UInt8) (eag : Bool) (sret : Int)
    (hpos : 0 < B.length) (hle : B.length ≤ 1024) :
    serviceClient sock ⟨(B.length : Int), B ++ junk, eag, sret⟩ =
      (true, [Ev.recvCall sock, Ev.sendCall sock B]) := by
  have h1 : ¬(((B.length : Nat) : Int) ≤ 0 ∧ eag = false) := by
    intro h
    have := h.1
    omega
  have h2 : (0 : Int) < ((B.length : Nat) : Int) := by exact_mod_cast hpos
  unfold serviceClient
  simp only [h1, if_false, h2, if_true, if_pos h2]
  rw [Int.toNat_natCast]
  simp

/-- C1 witness: the four bytes of `"ping"` are echoed verbatim. -/
theorem echo_correct_witness :
    serviceClient 7 ⟨(([112, 105, 110, 103] : List UInt8).length : Int),
        ([112, 105, 110, 103] : List UInt8) ++ [], false, 4⟩ =
      (true, [Ev.recvCall 7, Ev.sendCall 7 [112, 105, 110, 103]]) :=
  echo_correct 7 [112, 105, 110, 103] [] false 4 (by decide) (by decide)

/-- C2 counterexample: a `recv` that returns zero bytes (peer closed
cleanly) while the ambient `errno` still holds `EAGAIN` (stale from an
earlier call — `recv` returning 0 does not set `errno`) is NOT treated
as a closed connection: no `shutdown`, no `close`, and the descriptor
stays in the live set, contradicting "regardless of any other condition
such as the current errno value". -/
theorem zero_read_stale_eagain_kept :
    serviceClient 5 ⟨0, [], true, 0⟩ = (true, [Ev.recvCall 5]) := by rfl

/-- C2 amended: when a read on a live connection returns zero bytes AND
`errno` is not `EAGAIN` at that moment, the server shuts down both
directions, closes the descriptor and removes the connection from the
live set (the code tests `nRead <= 0 && errno != EAGAIN`, so a zero-byte
read with a stale would-block `errno` leaves the connection live). -/
theorem zero_read_removes (sock : Int) (r : RecvOutcome) (h0 : r.nRead = 0)
    (heag : r.errnoEAGAIN = false) :
    serviceClient sock r =
      (false, [Ev.recvCall sock, Ev.shutdownCall sock, Ev.closeCall sock]) ∧
    ∀ (ready : Int → Bool) (recvOf : Int → RecvOutcome) (clients : List Int),
      clients.Pairwise (· < ·) → sock ∈ clients → ready sock = true →
      recvOf sock = r → sock ∉ (serviceClients ready recvOf clients).1 := by
  constructor
  · unfold serviceClient
    simp [h0, heag]
  · intro ready recvOf clients hp hmem hready hr
    rw [mem_serviceClients ready recvOf clients hp sock hmem]
    simp [hready, hr, h0, heag]

/-- C2 amended witness: a zero-byte read with `errno` not `EAGAIN` on
descriptor 5, alone in the live set and marked ready, is shut down,
closed and removed. -/
theorem zero_read_removes_witness :
    serviceClient 5 ⟨0, [], false, 0⟩ =
      (false, [Ev.recvCall 5, Ev.shutdownCall 5, Ev.closeCall 5]) ∧
    5 ∉ (serviceClients (fun _ => true) (fun _ => ⟨0, [], false, 0⟩) [5]).1 := by
  have h := zero_read_removes 5 ⟨0, [], false, 0⟩ rfl rfl
  exact ⟨h.1, h.2 (fun _ => true) (fun _ => ⟨0, [], false, 0⟩) [5]
    (by simp) (by simp) rfl rfl⟩

/-- C10: `maxSocketId` returns the server socket when the client set is
empty and the maximum of the server socket and the largest client
otherwise, so every descriptor in the interest set is strictly below
the `nfds` value `max + 1` passed to `select`. -/
theorem maxSocketId_correct (s : Int) (clients : List Int)
    (hp : clients.Pairwise (· < ·)) :
    (clients = [] → maxSocketId s clients = s) ∧
    (∀ m ∈ clients, (∀ y ∈ clients, y ≤ m) → maxSocketId s clients = max s m) ∧
    (∀ x ∈ interestSet s clients, x < maxSocketId s clients + 1) := by
  refine ⟨?_, ?_, ?_⟩
  · intro h
    subst h
    rfl
  · intro m hm hub
    obtain ⟨g, hg1, hg2, hg3⟩ :=
      getLast?_of_sorted clients (List.ne_nil_of_mem hm) hp
    have hgm : g = m := le_antisymm (hub g hg2) (hg3 m hm)
    unfold maxSocketId
    rw [hg1, hgm]
  · intro x hx
    rw [Int.lt_add_one_iff]
    rcases List.mem_cons.mp hx with heq | hmem
    · subst heq
      unfold maxSocketId
      cases h : clients.getLast? with
      | none => exact le_refl x
      | some m => exact le_max_left x m
    · obtain ⟨g, hg1, _, hg3⟩ :=
        getLast?_of_sorted clients (List.ne_nil_of_mem hmem) hp
      have : maxSocketId s clients = max s g := by
        unfold maxSocketId
        rw [hg1]
      rw [this]
      exact le_trans (hg3 x hmem) (le_max_right s g)

/-- C10 witness: with server socket 4 and clients `{3, 7}`, the value is
`max 4 7` and the listener descriptor is below `nfds`. -/
theorem maxSocketId_correct_witness :
    maxSocketId 4 [3, 7] = max 4 7 ∧ (4 : Int) < maxSocketId 4 [3, 7] + 1 := by
  have h := maxSocketId_correct 4 [3, 7] (by decide)
  exact ⟨h.2.1 7 (by decide) (by decide), h.2.2 4 (by decide)⟩

/-- C5: live-set maintenance.  A serviced client is removed exactly when
its read is eof-or-error with `errno` not would-block; the discarded
`send` return value never affects the result; servicing never adds
descriptors; and a client of the set survives the pass iff it was not
ready with such an eof-or-error read. -/
theorem liveSet_invariant (ready : Int → Bool) (recvOf : Int → RecvOutcome)
    (clients : List Int) (hp : clients.Pairwise (· < ·)) :
    (∀ (sock : Int) (r : RecvOutcome), (serviceClient sock r).1 = false ↔
      r.nRead ≤ 0 ∧ r.errnoEAGAIN = false) ∧
    (∀ (sock : Int) (r : RecvOutcome) (v : Int),
      serviceClient sock ⟨r.nRead, r.buf, r.errnoEAGAIN, v⟩ = serviceClient sock r) ∧
    List.Sublist (serviceClients ready recvOf clients).1 clients ∧
    (∀ sock ∈ clients, (sock ∈ (serviceClients ready recvOf clients).1 ↔
      ¬(ready sock = true ∧ (recvOf sock).nRead ≤ 0 ∧
        (recvOf sock).errnoEAGAIN = false))) :=
  ⟨serviceClient_fst_eq_false_iff, serviceClient_snd_sendRet,
    serviceClients_sublist ready recvOf clients,
    fun sock hs => mem_serviceClients ready recvOf clients hp sock hs⟩

/-- C5 witness: descriptor 4, ready with a would-block read, stays in
the set `{4, 6}`; the pass adds nothing. -/
theorem liveSet_invariant_witness :
    4 ∈ (serviceClients (fun s => s == 4) (fun _ => ⟨-1, [], true, 0⟩) [4, 6]).1 ∧
    List.Sublist (serviceClients (fun s => s == 4)
      (fun _ => ⟨-1, [], true, 0⟩) [4, 6]).1 [4, 6] := by
  have h := liveSet_invariant (fun s => s == 4) (fun _ => ⟨-1, [], true, 0⟩) [4, 6]
    (by decide)
  exact ⟨(h.2.2.2 4 (by decide)).mpr (by decide), h.2.2.1⟩

/-- C4: in one loop iteration all ready clients are serviced in
ascending descriptor order, the listener is serviced last, the freshly
accepted descriptor is never read from or written to in that iteration,
and it is a member of the next iteration's interest set. -/
theorem iteration_order (listenFd : Int) (os : OsIter) (clients : List Int)
    (hp : clients.Pairwise (· < ·)) (hready : os.ready listenFd = true)
    (hacc : os.acceptRet ≠ -1) (hfc : os.acceptFcntlOk = true)
    (hfresh : os.acceptRet ∉ clients) :
    serverStartIter listenFd os clients =
      Except.ok (insertSorted os.acceptRet
          (serviceClients os.ready os.recvOf clients).1,
        (serviceClients os.ready os.recvOf clients).2 ++
          [Ev.acceptCall os.acceptRet, Ev.setNonblockCall os.acceptRet]) ∧
    recvSeq (serviceClients os.ready os.recvOf clients).2 =
      clients.filter os.ready ∧
    List.Pairwise (· < ·) (recvSeq (serviceClients os.ready os.recvOf clients).2) ∧
    (∀ e ∈ (serviceClients os.ready os.recvOf clients).2,
      readsOrWrites os.acceptRet e = false) ∧
    os.acceptRet ∈ interestSet listenFd
      (insertSorted os.acceptRet (serviceClients os.ready os.recvOf clients).1) := by
  refine ⟨?_, recvSeq_serviceClients os.ready os.recvOf clients, ?_, ?_, ?_⟩
  · unfold serverStartIter
    simp [hready, hacc, hfc]
  · rw [recvSeq_serviceClients]
    exact hp.sublist (List.filter_sublist clients)
  · exact readsOrWrites_serviceClients os.ready os.recvOf os.acceptRet clients hfresh
  · exact List.mem_cons_of_mem listenFd
      (mem_insertSorted_self os.acceptRet (serviceClients os.ready os.recvOf clients).1)

/-- C4 witness: listener 3 and client 4 ready, client 5 idle, accept
returns 6; the iteration reads only 4 and picks up 6 after the clients,
and 6 is in the next interest set. -/
theorem iteration_order_witness :
    serverStartIter 3 ⟨fun s => s == 3 || s == 4, fun _ => ⟨-1, [], true, 0⟩, 6, true⟩
        [4, 5] =
      Except.ok ([4, 5, 6], [Ev.recvCall 4, Ev.acceptCall 6, Ev.setNonblockCall 6]) ∧
    (6 : Int) ∈ interestSet 3 (insertSorted 6
      (serviceClients (fun s => s == 3 || s == 4)
        (fun _ => ⟨-1, [], true, 0⟩) [4, 5]).1) := by
  have h := iteration_order 3
    ⟨fun s => s == 3 || s == 4, fun _ => ⟨-1, [], true, 0⟩, 6, true⟩ [4, 5]
    (by decide) rfl (by decide) rfl (by decide)
  exact ⟨h.1.trans rfl, h.2.2.2.2⟩

/-- C8: when the listening descriptor is ready, an `accept` returning
`-1` makes the iteration fail with `AcceptFailed`; a successful accept
(with working `fcntl`) performs exactly one `accept`, makes the new
descriptor non-blocking, and inserts it in the live set. -/
theorem accept_service (listenFd : Int) (os : OsIter) (clients : List Int)
    (hready : os.ready listenFd = true) :
    (os.acceptRet = -1 →
      serverStartIter listenFd os clients = Except.error FtError.AcceptFailed) ∧
    (os.acceptRet ≠ -1 → os.acceptFcntlOk = true →
      serverStartIter listenFd os clients =
        Except.ok (insertSorted os.acceptRet
            (serviceClients os.ready os.recvOf clients).1,
          (serviceClients os.ready os.recvOf clients).2 ++
            [Ev.acceptCall os.acceptRet, Ev.setNonblockCall os.acceptRet]) ∧
      os.acceptRet ∈ insertSorted os.acceptRet
        (serviceClients os.ready os.recvOf clients).1 ∧
      (((serviceClients os.ready os.recvOf clients).2 ++
        [Ev.acceptCall os.acceptRet, Ev.setNonblockCall os.acceptRet]).filter
          isAcceptEv).length = 1) := by
  constructor
  · intro h
    unfold serverStartIter
    simp [hready, h]
  · intro h hf
    refine ⟨?_, mem_insertSorted_self os.acceptRet _, ?_⟩
    · unfold serverStartIter
      simp [hready, h, hf]
    · rw [List.filter_append]
      have hnil : ((serviceClients os.ready os.recvOf clients).2).filter isAcceptEv = [] :=
        List.filter_eq_nil_iff.mpr fun e he => by
          simp [isAcceptEv_serviceClients os.ready os.recvOf clients e he]
      rw [hnil]
      simp [isAcceptEv]

/-- C8 witness: with the listener ready, `accept` returning `-1` aborts
the loop with `AcceptFailed`, and `accept` returning descriptor 9 adds 9
to an empty live set. -/
theorem accept_service_witness :
    serverStartIter 3 ⟨fun _ => true, fun _ => ⟨-1, [], true, 0⟩, -1, true⟩ [] =
      Except.error FtError.AcceptFailed ∧
    serverStartIter 3 ⟨fun _ => true, fun _ => ⟨-1, [], true, 0⟩, 9, true⟩ [] =
      Except.ok ([9], [Ev.acceptCall 9, Ev.setNonblockCall 9]) := by
  have h1 := accept_service 3 ⟨fun _ => true, fun _ => ⟨-1, [], true, 0⟩, -1, true⟩ [] rfl
  have h2 := accept_service 3 ⟨fun _ => true, fun _ => ⟨-1, [], true, 0⟩, 9, true⟩ [] rfl
  exact ⟨h1.1 rfl, ((h2.2 (by decide) rfl).1).trans rfl⟩

/-- C6: construction fails with `InvalidPort` exactly when the port is
outside 1-65535, and in that case no system call at all — in particular
no `socket()` — has been performed. -/
theorem invalidPort_iff (port : Int) (os : CtorOs) :
    ((serverSocketCtor port os).2 =
        Except.error (CppExc.ftExc FtError.InvalidPort) ↔
      port ≤ 0 ∨ port > 65535) ∧
    ((port ≤ 0 ∨ port > 65535) → (serverSocketCtor port os).1 = []) := by
  by_cases hrange : port ≤ 0 ∨ port > 65535
  · constructor
    · simp [serverSocketCtor, hrange]
    · intro _
      simp [serverSocketCtor, hrange]
  · refine ⟨⟨fun h => ?_, fun h => absurd h hrange⟩, fun h => absurd h hrange⟩
    exfalso
    unfold serverSocketCtor at h
    rw [if_neg hrange] at h
    by_cases h1 : os.socketRet < 0
    · simp [h1] at h
    · by_cases h2 : os.setsockoptRet < 0
      · simp [h1, h2] at h
      · by_cases h3 : os.fcntlOk = false
        · simp [h1, h2, h3] at h
        · by_cases h4 : os.bindRet < 0 <;> simp [h1, h2, h3, h4] at h

/-- C6 witness: port 0 is rejected with `InvalidPort` and an empty
system-call trace. -/
theorem invalidPort_iff_witness :
    (serverSocketCtor 0 ⟨3, 0, true, 0⟩).2 =
      Except.error (CppExc.ftExc FtError.InvalidPort) ∧
    (serverSocketCtor 0 ⟨3, 0, true, 0⟩).1 = [] := by
  have h := invalidPort_iff 0 ⟨3, 0, true, 0⟩
  exact ⟨h.1.mpr (by decide), h.2 (by decide)⟩

/-- C7: any constructor failure after `socket()` succeeded (setsockopt,
fcntl or bind failing) closes the descriptor: the error that propagates
is the rethrown one and `close(fd)` is the last system call of the
trace. -/
theorem ctor_no_leak (port : Int) (os : CtorOs)
    (hrange : ¬(port ≤ 0 ∨ port > 65535)) (hsock : 0 ≤ os.socketRet)
    (hfail : os.setsockoptRet < 0 ∨ os.fcntlOk = false ∨ os.bindRet < 0) :
    (∃ e, (serverSocketCtor port os).2 = Except.error (CppExc.stdExc e)) ∧
    Ev.closeCall os.socketRet ∈ (serverSocketCtor port os).1 ∧
    (serverSocketCtor port os).1.getLast? = some (Ev.closeCall os.socketRet) := by
  have h1 : ¬ os.socketRet < 0 := not_lt.mpr hsock
  unfold serverSocketCtor
  rw [if_neg hrange, if_neg h1]
  by_cases h2 : os.setsockoptRet < 0
  · refine ⟨⟨FtError.SocketOptionFailed, ?_⟩, ?_, ?_⟩ <;> simp [h2]
  · by_cases h3 : os.fcntlOk = false
    · refine ⟨⟨FtError.FcntlFailed, ?_⟩, ?_, ?_⟩ <;> simp [h2, h3]
    · have h4 : os.bindRet < 0 := by tauto
      refine ⟨⟨FtError.BindFailed, ?_⟩, ?_, ?_⟩ <;> simp [h2, h3, h4]

/-- C7 witness: port 8080, descriptor 3 allocated, `setsockopt` fails:
the trace closes descriptor 3 last. -/
theorem ctor_no_leak_witness :
    Ev.closeCall 3 ∈ (serverSocketCtor 8080 ⟨3, -1, true, 0⟩).1 ∧
    (serverSocketCtor 8080 ⟨3, -1, true, 0⟩).1.getLast? =
      some (Ev.closeCall 3) := by
  have h := ctor_no_leak 8080 ⟨3, -1, true, 0⟩ (by decide) (by decide)
    (Or.inl (by decide))
  exact ⟨h.2.1, h.2.2⟩

/-- C3 (code bug): a post-allocation constructor failure — here
`setsockopt` failing on port 8080 — raises `SocketOptionFailed`, but the
constructor's `throw e` slices it to `std::exception`, which `main`'s
`catch (const ft::exception &)` does not match: the process terminates
abnormally instead of printing the one-line "setsockopt()" message and
returning `EXIT_FAILURE`; the last conjunct shows the exit-1-with-message
behaviour the claim describes, which only an unsliced `ft::exception`
would produce. -/
theorem sliced_exception_aborts :
    (serverSocketCtor 8080 ⟨3, -1, true, 0⟩).2 =
      Except.error (CppExc.stdExc FtError.SocketOptionFailed) ∧
    ftMain 2 (startupOutcome 8080 ⟨3, -1, true, 0⟩) = ProcResult.aborted ∧
    ftMain 2 (Except.error (CppExc.ftExc FtError.SocketOptionFailed)) =
      ProcResult.exited 1 ["setsockopt()"] :=
  ⟨rfl, rfl, rfl⟩

/-- C9: with an argument count other than 2, `main` prints the usage
line to standard error and returns `EXIT_SUCCESS` (0), and its result is
independent of anything the server path would do — no server is
constructed. -/
theorem usage_exit (argc : Nat) (run : Except CppExc Unit) (h : argc ≠ 2) :
    ftMain argc run = ProcResult.exited 0 ["Usage: port"] ∧
    ∀ run2 : Except CppExc Unit, ftMain argc run = ftMain argc run2 := by
  constructor
  · unfold ftMain
    rw [if_pos h]
  · intro run2
    unfold ftMain
    rw [if_pos h, if_pos h]

/-- C9 witness: three arguments exit 0 with the usage line, whatever the
server path would have produced. -/
theorem usage_exit_witness :
    ftMain 3 (Except.ok ()) = ProcResult.exited 0 ["Usage: port"] ∧
    ftMain 3 (Except.ok ()) =
      ftMain 3 (Except.error (CppExc.ftExc FtError.BindFailed)) := by
  have h := usage_exit 3 (Except.ok ()) (by decide)
  exact ⟨h.1, h.2 (Except.error (CppExc.ftExc FtError.BindFailed))⟩
